import Mathlib

/-!
Shallow embedding of the workout-tracker backend (Express + Prisma routes in
`apps/api/src/routes/workouts.ts` and the second router variant concatenated
into `apps/api/src/routes/auth.ts`), written to check the natural-language
specification against the code.

Modelling conventions:
* JavaScript strings are Lean `String`s; character-level operations
  (`split(',')`, `join(',')`, Prisma `contains`) are defined on `String.data`.
* JavaScript numbers that the routes treat as integers are `Int`;
  `parseInt` returning `NaN` is modelled as `none : Option Int`.
* `Date` values are UTC epoch instants: calendar dates are epoch day counts
  (`Int`), timestamps are epoch milliseconds (`Int`).  The process timezone is
  modelled as UTC, the reference timezone the spec fixes, so `getDay`,
  `setHours` and `getDate` coincide with their UTC variants.
* The SQLite database is a record of three tables (lists of rows); Prisma
  `findFirst` without `orderBy` scans in rowid (id-ascending, creation) order,
  so tables are kept in that order.
* A Prisma `$transaction` is a single atomic state change; independent awaited
  calls are sequential state changes, each committed even if a later one fails.
-/

namespace WorkoutRepo

/-- Characters `0`-`9`, as JavaScript `parseInt` recognises them. -/
def isDigitCh (c : Char) : Bool := 48 ≤ c.toNat && c.toNat ≤ 57

/-- Accumulate a decimal digit string into a natural number. -/
def digitsToNat (cs : List Char) : Nat :=
  cs.foldl (fun acc c => acc * 10 + (c.toNat - 48)) 0

/-- JavaScript `parseInt(s)` (radix 10, no surrounding whitespace in the
inputs this code produces): an optional sign followed by the longest digit
prefix; `none` models `NaN` (no digits at all, in particular `parseInt("")`). -/
def parseIntJS (s : List Char) : Option Int :=
  match s with
  | '-' :: rest =>
      let ds := rest.takeWhile isDigitCh
      if ds.isEmpty then none else some (-(digitsToNat ds : Int))
  | _ =>
      let ds := s.takeWhile isDigitCh
      if ds.isEmpty then none else some (digitsToNat ds : Int)

/-- JavaScript `s.split(',')` on the character list of `s`.
`"".split(',')` is `[""]`, i.e. `splitComma [] = [[]]`. -/
def splitComma : List Char → List (List Char)
  | [] => [[]]
  | c :: cs =>
      if c = ',' then [] :: splitComma cs
      else
        match splitComma cs with
        | [] => [[c]]
        | p :: ps => (c :: p) :: ps

/-- JavaScript `days.join(',')` for a list of numbers, at the character level. -/
def joinCSV : List Int → List Char
  | [] => []
  | [x] => (toString x).data
  | x :: y :: rest => (toString x).data ++ ',' :: joinCSV (y :: rest)

/-- `days.join(',')` as a string, the value stored in `scheduleDays`
by `POST /workouts` (`workoutData.schedule.days.join(',')`). -/
def joinDaysStr (ds : List Int) : String := ⟨joinCSV ds⟩

/-- `scheduleDays.split(',').map(day => parseInt(day))`, the decoding used by
`parseWorkoutScheduleDays` in the routes. -/
def parseDays (s : String) : List (Option Int) :=
  (splitComma s.data).map parseIntJS

/-- Substring search at the character level: `pat` occurs contiguously in `s`. -/
def listContainsSub (pat : List Char) : List Char → Bool
  | [] => pat.isEmpty
  | a :: tail => pat.isPrefixOf (a :: tail) || listContainsSub pat tail

/-- Prisma `field: { contains: pat }` — substring containment (SQL `LIKE %pat%`). -/
def strContains (s pat : String) : Bool :=
  listContainsSub pat.data s.data

/-- UTC weekday (`Date.prototype.getDay` under a UTC process timezone) of an
epoch day count: day 0 = 1970-01-01 was a Thursday, and 0 = Sunday. -/
def weekdayOfDay (day : Int) : Int := (day + 4) % 7

/-- Milliseconds per day. -/
def msPerDay : Int := 86400000

/-! ## Data model (prisma/schema.prisma) -/

/-- Row of the `Workout` table. -/
structure Workout where
  id : Int
  name : String
  category : String
  userId : Int
  scheduleType : String
  scheduleDays : String
  frequency : Int
  deriving Repr, DecidableEq

/-- Row of the `Exercise` table. -/
structure ExerciseRow where
  id : Int
  name : String
  sets : Int
  reps : Int
  weight : Int
  progress : Int
  notes : Option String
  workoutId : Int
  deriving Repr, DecidableEq

/-- One element of the free-form `exercises` JSON payload stored on a
`WorkoutLog` (shape fixed by the call sites: name/sets/reps/weight/notes). -/
structure ExerciseResult where
  name : String
  sets : Int
  reps : Int
  weight : Int
  notes : Option String
  deriving Repr, DecidableEq

/-- Row of the `WorkoutLog` table; `date` is an epoch-millisecond instant. -/
structure LogRow where
  id : Int
  userId : Int
  workoutId : Int
  date : Int
  exercises : List ExerciseResult
  deriving Repr, DecidableEq

/-- The SQLite database, each table in rowid (id-ascending, creation) order. -/
structure DB where
  workouts : List Workout
  exercises : List ExerciseRow
  logs : List LogRow
  deriving Repr, DecidableEq

/-- Prisma `include: { exercises: true }` for a workout id. -/
def exercisesOf (db : DB) (wid : Int) : List ExerciseRow :=
  db.exercises.filter (fun e => e.workoutId == wid)

/-! ## Schedule matching and day / week resolution
(`GET /date/:date`, lines 47-86, and `GET /week/:date`, lines 192-252,
of `workouts.ts`) -/

/-- The `OR` clause of the `findFirst` query in `GET /date/:date` and
`GET /week/:date`: `scheduleType = 'daily'`, or `scheduleType = 'weekly'`
and `scheduleDays` contains the decimal rendering of the weekday. -/
def scheduleMatches (w : Workout) (dayOfWeek : Int) : Bool :=
  w.scheduleType == "daily" ||
    (w.scheduleType == "weekly" && strContains w.scheduleDays (toString dayOfWeek))

/-- The whole `where` predicate of that `findFirst`: owned by the caller and
schedule-matching. -/
def workoutQueryPred (u dayOfWeek : Int) (w : Workout) : Bool :=
  w.userId == u && scheduleMatches w dayOfWeek

/-- `prisma.workout.findFirst` for the day query: first matching row in
table (rowid / id-ascending) order. -/
def findScheduled (db : DB) (u dayOfWeek : Int) : Option Workout :=
  db.workouts.find? (workoutQueryPred u dayOfWeek)

/-- Response shape of `GET /date/:date`: `{ date, category, exercises }`
(no workout id field is emitted by this route). -/
structure DayResponse where
  date : Int
  category : String
  exercises : List ExerciseRow
  deriving Repr, DecidableEq

/-- `GET /date/:date` for an already-parsed calendar date (epoch day count):
compute `getDay`, run the `findFirst`, answer the matched workout's category
and exercises, or the Rest sentinel when nothing matched. -/
def getWorkoutForDate (db : DB) (u day : Int) : DayResponse :=
  match findScheduled db u (weekdayOfDay day) with
  | none => ⟨day, "Rest", []⟩
  | some w => ⟨day, w.category, exercisesOf db w.id⟩

/-- One entry of the `GET /week/:date` response:
`{ id: workout?.id || null, date, category: workout?.category || 'Rest',
exercises: workout?.exercises || [] }`. -/
structure WeekEntry where
  id : Option Int
  date : Int
  category : String
  exercises : List ExerciseRow
  deriving Repr, DecidableEq

/-- The loop body of `GET /week/:date` for one day.  JavaScript `|| null` and
`|| 'Rest'` replace falsy values, so an id of `0` becomes `null` and an empty
category string becomes `'Rest'`; `exercises || []` keeps the (truthy) array. -/
def weekEntryFor (db : DB) (u day : Int) : WeekEntry :=
  match findScheduled db u (weekdayOfDay day) with
  | none => ⟨none, day, "Rest", []⟩
  | some w =>
      ⟨if w.id == 0 then none else some w.id, day,
       if w.category == "" then "Rest" else w.category,
       exercisesOf db w.id⟩

/-- `GET /week/:date` for an already-validated start date, normalised to
midnight (an epoch day count): the `for i in 0..6` loop pushing one entry for
`startDate + i` days. -/
def getWeek (db : DB) (u startDay : Int) : List WeekEntry :=
  (List.range 7).map (fun i => weekEntryFor db u (startDay + i))

/-! ## Workout creation (`POST /`, lines 8-23 and 89-115 of `workouts.ts`) -/

/-- `schedule` part of the request body (already shaped per `z.object`). -/
structure ScheduleInput where
  type : String
  days : List Int
  frequency : Int
  deriving Repr, DecidableEq

/-- One element of the `exercises` array of the request body. -/
structure ExerciseInput where
  name : String
  sets : Int
  reps : Int
  weight : Int
  notes : Option String
  deriving Repr, DecidableEq

/-- `POST /workouts` request body (already shaped per `workoutSchema`). -/
structure WorkoutInput where
  name : String
  category : String
  exercises : List ExerciseInput
  schedule : ScheduleInput
  deriving Repr, DecidableEq

/-- The value-level content of `workoutSchema.parse`: `category` and
`schedule.type` must be one of the allowed literals.  zod checks nothing else
about the values — `days` is any array of numbers (no range, emptiness,
integrality or duplicate constraint), `frequency` any number. -/
def workoutSchemaOk (i : WorkoutInput) : Bool :=
  (i.category == "Push" || i.category == "Pull" || i.category == "Legs" ||
    i.category == "Upper" || i.category == "Lower") &&
  (i.schedule.type == "weekly" || i.schedule.type == "daily")

/-- Nested `exercises: { create: ... }` rows, ids assigned by autoincrement. -/
def mkExerciseRows (firstId wid : Int) : List ExerciseInput → List ExerciseRow
  | [] => []
  | e :: rest =>
      ⟨firstId, e.name, e.sets, e.reps, e.weight, 0, e.notes, wid⟩ ::
        mkExerciseRows (firstId + 1) wid rest

/-- `POST /workouts`: validate against `workoutSchema` (400 on `ZodError`,
nothing created), else insert the workout with
`scheduleDays := schedule.days.join(',')` and its nested exercises.
`newId` / `newExId` are the autoincrement ids the database assigns. -/
def postWorkout (db : DB) (u : Int) (i : WorkoutInput) (newId newExId : Int) :
    Except Nat Workout × DB :=
  if workoutSchemaOk i then
    let w : Workout :=
      ⟨newId, i.name, i.category, u, i.schedule.type,
        joinDaysStr i.schedule.days, i.schedule.frequency⟩
    (Except.ok w,
      { db with
          workouts := db.workouts ++ [w]
          exercises := db.exercises ++ mkExerciseRows newExId newId i.exercises })
  else (Except.error 400, db)

/-- `parseWorkoutScheduleDays` (lines 25-30): the `days` array the API derives
from a stored workout, `scheduleDays.split(',').map(day => parseInt(day))`,
with `none` modelling `NaN`. -/
def parseWorkoutScheduleDays (w : Workout) : List (Option Int) :=
  parseDays w.scheduleDays

/-- `GET /workouts` (lines 33-44): every stored workout of the caller,
mapped through `parseWorkoutScheduleDays`, with its exercises. -/
def getAllWorkouts (db : DB) (u : Int) :
    List (Workout × List (Option Int) × List ExerciseRow) :=
  (db.workouts.filter (fun w => w.userId == u)).map
    (fun w => (w, parseWorkoutScheduleDays w, exercisesOf db w.id))

/-! ## Logging routes -/

/-- Request body for the log routes; `none` models an absent field. -/
structure LogBody where
  date : Option Int
  exercises : Option (List ExerciseResult)
  workoutId : Option Int
  deriving Repr, DecidableEq

/-- `POST /:id/log` (lines 118-136 of `workouts.ts`): reads only `exercises`
from the body, never validates anything, and stores `date: new Date()` — the
server's wall-clock receipt time `now`, not the client-supplied date.  The
insert fails (caught, 500) when the required `exercises` payload is absent or
the `workoutId` foreign key references no `Workout` row; otherwise the row is
appended.  `newId` is the autoincrement id. -/
def postIdLog (db : DB) (u pathId : Int) (body : LogBody) (now newId : Int) :
    Except Nat LogRow × DB :=
  match body.exercises with
  | none => (Except.error 500, db)
  | some exs =>
      if db.workouts.any (fun w => w.id == pathId) then
        let row : LogRow := ⟨newId, u, pathId, now, exs⟩
        (Except.ok row, { db with logs := db.logs ++ [row] })
      else (Except.error 500, db)

/-- `POST /logs` (lines 324-351 of `workouts.ts`): 400 when `date`,
`exercises` or `workoutId` is missing; otherwise stores the client-supplied
`date` (`new Date(date)`) and the exercises payload as given.  The insert
fails (caught, 500) when `workoutId` references no `Workout` row.  No
ownership check relates `workoutId` to the caller `u`.  The unused `now`
parameter is the server receipt time, recorded to state that the stored
timestamp does not depend on it. -/
def postLogs (db : DB) (u : Int) (body : LogBody) (now newId : Int) :
    Except Nat LogRow × DB :=
  match body.date, body.exercises, body.workoutId with
  | some d, some exs, some wid =>
      if db.workouts.any (fun w => w.id == wid) then
        let row : LogRow := ⟨newId, u, wid, d, exs⟩
        (Except.ok row, { db with logs := db.logs ++ [row] })
      else (Except.error 500, db)
  | _, _, _ => (Except.error 400, db)

/-- `GET /logs?date=...` (lines 255-274 of `workouts.ts`): filter the caller's
logs to the inclusive window from the date's 00:00:00.000 to 23:59:59.999
(`setHours(0,0,0,0)` / `setHours(23,59,59,999)` under the UTC process
timezone), Prisma `gte` / `lte`. -/
def getLogs (db : DB) (u day : Int) : List LogRow :=
  db.logs.filter (fun l =>
    l.userId == u && day * msPerDay ≤ l.date && l.date ≤ day * msPerDay + 86399999)

/-- `GET /logs/:date` (lines 277-321 of `workouts.ts`): the same inclusive
day window as `getLogs`, then `orderBy: { date: 'desc' }`, each log enriched
with a `{ name, category }` projection of its workout. -/
def getLogsForDate (db : DB) (u day : Int) :
    List (LogRow × Option (String × String)) :=
  ((getLogs db u day).mergeSort (fun a b => b.date ≤ a.date)).map
    (fun l => (l, (db.workouts.find? (fun w => w.id == l.workoutId)).map
      (fun w => (w.name, w.category))))

/-! ## Deletion routes -/

/-- `DELETE /:id` of `workouts.ts` (lines 157-175): two independent awaited
calls, no transaction, logs never touched.  First `exercise.deleteMany`
commits; then `workout.delete` fails (caught, 500) when the row is absent
(Prisma P2025) or when a `WorkoutLog` still references it (SQLite
`ON DELETE RESTRICT` foreign key) — leaving the exercise deletion in place. -/
def deleteWorkoutRoute (db : DB) (wid : Int) : Except Nat Unit × DB :=
  let db1 : DB := { db with exercises := db.exercises.filter (fun e => !(e.workoutId == wid)) }
  if (db1.workouts.find? (fun w => w.id == wid)).isNone then
    (Except.error 500, db1)
  else if db1.logs.any (fun l => l.workoutId == wid) then
    (Except.error 500, db1)
  else
    (Except.ok (), { db1 with workouts := db1.workouts.filter (fun w => !(w.id == wid)) })

/-- The transactional `DELETE /:id` variant (lines 285-320 of the second
workout router in `auth.ts`): 404 unless the workout exists and belongs to
the caller, then one `$transaction` deleting its logs, its exercises and the
workout itself as a single atomic state change. -/
def deleteWorkoutTxRoute (db : DB) (u wid : Int) : Except Nat Unit × DB :=
  match db.workouts.find? (fun w => w.id == wid && w.userId == u) with
  | none => (Except.error 404, db)
  | some _ =>
      (Except.ok (),
        ⟨db.workouts.filter (fun w => !(w.id == wid)),
         db.exercises.filter (fun e => !(e.workoutId == wid)),
         db.logs.filter (fun l => !(l.workoutId == wid))⟩)

/-- `PUT /:id` of the exercise router in `auth.ts` (lines 110-141): update an
exercise row owned (through its workout) by the caller; only the `exercises`
table changes — shown below to express that logged snapshots are copies, not
references to live `Exercise` rows. -/
def updateExerciseRoute (db : DB) (u eid : Int) (data : ExerciseInput) :
    Except Nat Unit × DB :=
  let owned := db.exercises.any (fun e => e.id == eid &&
    db.workouts.any (fun w => w.id == e.workoutId && w.userId == u))
  if owned then
    (Except.ok (),
      { db with
          exercises := db.exercises.map (fun e =>
            if e.id == eid then
              { e with name := data.name, sets := data.sets, reps := data.reps,
                       weight := data.weight, notes := data.notes }
            else e) })
  else (Except.error 404, db)

/-! ## Concrete example states used by witnesses and counterexamples -/

/-- A daily workout of user 1. -/
def wDaily : Workout := ⟨1, "Push Day", "Push", 1, "daily", "", 3⟩

/-- A weekly Monday/Wednesday/Friday workout of user 1. -/
def wWeekly : Workout := ⟨2, "Pull Day", "Pull", 1, "weekly", "1,3,5", 3⟩

/-- Two workouts of user 1 in creation order; on a Monday both match. -/
def dbTwo : DB := ⟨[wDaily, wWeekly], [], []⟩

/-- An empty database. -/
def emptyDB : DB := ⟨[], [], []⟩

/-- Workout 1 of user 1 together with one exercise row and one logged
session referencing it. -/
def exDB : DB :=
  ⟨[wDaily], [⟨1, "Bench Press", 3, 10, 80, 0, none, 1⟩], [⟨1, 1, 1, 0, []⟩]⟩

/-- A database whose only workout, id 1, belongs to user 2. -/
def exDB2 : DB := ⟨[⟨1, "Leg Day", "Legs", 2, "daily", "", 1⟩], [], []⟩

/-- One snapshot exercise result, as the mobile client submits it. -/
def benchResult : ExerciseResult := ⟨"Bench Press", 3, 10, 80, none⟩

/-- A complete log body: client-supplied date 999, one result, workout 1. -/
def logBodyFull : LogBody := ⟨some 999, some [benchResult], some 1⟩

/-- A weekly creation input whose `days` are out of range and duplicated. -/
def badDaysInput : WorkoutInput := ⟨"A", "Push", [], ⟨"weekly", [9, 9], 1⟩⟩

/-- A daily creation input with an empty `days` array. -/
def emptyDaysInput : WorkoutInput := ⟨"D", "Legs", [], ⟨"daily", [], 2⟩⟩

/-! ## Helper lemmas: the comma-separated weekday encoding -/

/-- The single character rendering a weekday digit. -/
def digitChar (x : Int) : Char := Char.ofNat (48 + x.toNat)

theorem repr_digit (x : Int) (h0 : 0 ≤ x) (h6 : x ≤ 6) :
    (toString x).data = [digitChar x] := by
  interval_cases x <;> decide

theorem digitChar_ne_comma (x : Int) (h0 : 0 ≤ x) (h6 : x ≤ 6) :
    digitChar x ≠ ',' := by
  interval_cases x <;> decide

theorem digitChar_inj (x v : Int) (hx0 : 0 ≤ x) (hx6 : x ≤ 6)
    (hv0 : 0 ≤ v) (hv6 : v ≤ 6) : digitChar x = digitChar v ↔ x = v := by
  interval_cases x <;> interval_cases v <;> decide

theorem comma_not_mem_repr (x : Int) (h0 : 0 ≤ x) (h6 : x ≤ 6) :
    ',' ∉ (toString x).data := by
  intro m
  rw [repr_digit x h0 h6] at m
  simp only [List.mem_singleton] at m
  exact digitChar_ne_comma x h0 h6 m.symm

theorem parseIntJS_digit (x : Int) (h0 : 0 ≤ x) (h6 : x ≤ 6) :
    parseIntJS (toString x).data = some x := by
  interval_cases x <;> decide

theorem splitComma_no_comma (s : List Char) (h : ',' ∉ s) :
    splitComma s = [s] := by
  induction s with
  | nil => rfl
  | cons c cs ih =>
    have hc : ¬(c = ',') := fun e => h (e ▸ List.mem_cons_self c cs)
    have hcs : ',' ∉ cs := fun m => h (List.mem_cons_of_mem _ m)
    simp [splitComma, hc, ih hcs]

theorem splitComma_append (a r : List Char) (h : ',' ∉ a) :
    splitComma (a ++ ',' :: r) = a :: splitComma r := by
  induction a with
  | nil => simp [splitComma]
  | cons c cs ih =>
    have hc : ¬(c = ',') := fun e => h (e ▸ List.mem_cons_self c cs)
    have hcs : ',' ∉ cs := fun m => h (List.mem_cons_of_mem _ m)
    simp [splitComma, hc, ih hcs]

theorem splitComma_joinCSV (ds : List Int) (hne : ds ≠ [])
    (hv : ∀ x ∈ ds, 0 ≤ x ∧ x ≤ 6) :
    splitComma (joinCSV ds) = ds.map (fun x => (toString x).data) := by
  induction ds with
  | nil => exact absurd rfl hne
  | cons x rest ih =>
    cases rest with
    | nil =>
      have hx := hv x (List.mem_cons_self x [])
      simp [joinCSV, splitComma_no_comma _ (comma_not_mem_repr x hx.1 hx.2)]
    | cons y t =>
      have hx := hv x (List.mem_cons_self x (y :: t))
      rw [joinCSV, splitComma_append _ _ (comma_not_mem_repr x hx.1 hx.2),
        ih (by simp) (fun z hz => hv z (List.mem_cons_of_mem _ hz))]
      simp

theorem mem_joinCSV (ds : List Int) (hv : ∀ x ∈ ds, 0 ≤ x ∧ x ≤ 6)
    (v : Int) (hv0 : 0 ≤ v) (hv6 : v ≤ 6) :
    digitChar v ∈ joinCSV ds ↔ v ∈ ds := by
  induction ds with
  | nil => simp [joinCSV]
  | cons x rest ih =>
    have hx := hv x (List.mem_cons_self x rest)
    have ih2 := ih (fun z hz => hv z (List.mem_cons_of_mem _ hz))
    cases rest with
    | nil =>
      rw [joinCSV, repr_digit x hx.1 hx.2]
      simp only [List.mem_singleton, List.mem_cons, List.not_mem_nil, or_false]
      exact digitChar_inj v x hv0 hv6 hx.1 hx.2
    | cons y t =>
      rw [joinCSV, repr_digit x hx.1 hx.2]
      have hinj := digitChar_inj v x hv0 hv6 hx.1 hx.2
      have hnc := digitChar_ne_comma v hv0 hv6
      simp only [List.cons_append, List.nil_append, List.mem_cons]
      constructor
      · rintro (h1 | h2 | h3)
        · exact Or.inl (hinj.mp h1)
        · exact absurd h2 hnc
        · rcases List.mem_cons.mp (ih2.mp h3) with h4 | h4
          · exact Or.inr (Or.inl h4)
          · exact Or.inr (Or.inr h4)
      · rintro (h1 | h2 | h3)
        · exact Or.inl (hinj.mpr h1)
        · exact Or.inr (Or.inr (ih2.mpr (List.mem_cons.mpr (Or.inl h2))))
        · exact Or.inr (Or.inr (ih2.mpr (List.mem_cons.mpr (Or.inr h3))))

theorem listContainsSub_singleton (c : Char) (s : List Char) :
    listContainsSub [c] s = true ↔ c ∈ s := by
  induction s with
  | nil => simp [listContainsSub]
  | cons a t ih =>
    simp [listContainsSub, List.isPrefixOf, ih]

/-- The weekday index is always in `0..6`. -/
theorem weekdayOfDay_bounds (d : Int) :
    0 ≤ weekdayOfDay d ∧ weekdayOfDay d ≤ 6 := by
  unfold weekdayOfDay
  omega

/-- `find?` on an id-sorted table returns the match with the least id. -/
theorem find?_min_id (p : Workout → Bool) (l : List Workout)
    (hs : List.Pairwise (fun a b => a.id < b.id) l) (w : Workout)
    (hf : l.find? p = some w) :
    ∀ w2 ∈ l, p w2 = true → w.id ≤ w2.id := by
  induction l with
  | nil => simp at hf
  | cons a t ih =>
    rcases List.pairwise_cons.mp hs with ⟨ha, ht⟩
    by_cases hp : p a = true
    · rw [List.find?_cons_of_pos _ hp] at hf
      cases hf
      intro w2 hw2 hpw2
      rcases List.mem_cons.mp hw2 with h | h
      · exact le_of_eq (congrArg Workout.id h.symm)
      · exact le_of_lt (ha w2 h)
    · rw [List.find?_cons_of_neg _ (by simpa using hp)] at hf
      intro w2 hw2 hpw2
      rcases List.mem_cons.mp hw2 with h | h
      · exact absurd (h ▸ hpw2) hp
      · exact ih ht hf w2 h hpw2

/-! ## Claims -/

/-- C1: for every workout and calendar date, a `daily` schedule always
matches, and a `weekly` schedule matches exactly when the UTC weekday of the
date (0 = Sunday .. 6 = Saturday) is one of the workout's scheduled weekdays
(the `days` list the workout was created with, each in `0..6`, stored as
`scheduleDays = days.join(',')`).  The Prisma `contains` substring test on
the comma-separated digit string coincides with set membership because every
valid weekday is a single digit. -/
theorem schedule_model_matches (w : Workout) (day : Int) (ds : List Int)
    (hdays : ∀ x ∈ ds, 0 ≤ x ∧ x ≤ 6) :
    (w.scheduleType = "daily" → scheduleMatches w (weekdayOfDay day) = true) ∧
    (w.scheduleType = "weekly" → w.scheduleDays = joinDaysStr ds →
      (scheduleMatches w (weekdayOfDay day) = true ↔ weekdayOfDay day ∈ ds)) := by
  obtain ⟨hw0, hw6⟩ := weekdayOfDay_bounds day
  constructor
  · intro hty
    simp [scheduleMatches, hty]
  · intro hty hsd
    rw [scheduleMatches, hty, hsd]
    simp only [show (("weekly" : String) == "daily") = false by decide,
      show (("weekly" : String) == "weekly") = true by decide,
      Bool.false_or, Bool.true_and]
    rw [strContains, show (joinDaysStr ds).data = joinCSV ds from rfl,
      repr_digit _ hw0 hw6, listContainsSub_singleton]
    exact mem_joinCSV ds hdays _ hw0 hw6

/-- Witness for C1 at a concrete weekly workout and date. -/
theorem schedule_model_matches_witness :
    (∀ x ∈ [(1 : Int), 3, 5], 0 ≤ x ∧ x ≤ 6) ∧
    (scheduleMatches wWeekly (weekdayOfDay 4) = true ↔
      weekdayOfDay 4 ∈ [(1 : Int), 3, 5]) :=
  ⟨by decide,
    (schedule_model_matches wWeekly 4 [1, 3, 5] (by decide)).2 (by decide) (by decide)⟩

/-- C9 counterexample: the claim quantifies over every list of weekday
integers, but at the empty list (stored string `""`) the round-trip yields
`[NaN]` (`[none]`), not `[]`. -/
theorem days_roundtrip_fails_at_nil :
    parseDays (joinDaysStr []) = [none] ∧
    parseDays (joinDaysStr []) ≠ List.map (fun x => some x) ([] : List Int) := by
  decide

/-- C9 (amended): for every non-empty list of weekday integers, serialising
to the comma-separated `scheduleDays` string and parsing back yields exactly
the original list, order preserved. -/
theorem days_roundtrip (ds : List Int) (hne : ds ≠ [])
    (hv : ∀ x ∈ ds, 0 ≤ x ∧ x ≤ 6) :
    parseDays (joinDaysStr ds) = ds.map (fun x => some x) := by
  unfold parseDays joinDaysStr
  rw [show (String.mk (joinCSV ds)).data = joinCSV ds from rfl,
    splitComma_joinCSV ds hne hv, List.map_map]
  refine List.map_congr_left (fun x hx => ?_)
  exact parseIntJS_digit x (hv x hx).1 (hv x hx).2

/-- Witness for C9 (amended) at `[1,3,5]`. -/
theorem days_roundtrip_witness :
    ([(1 : Int), 3, 5] ≠ []) ∧
    parseDays (joinDaysStr [1, 3, 5]) = [some 1, some 3, some 5] :=
  ⟨by decide, days_roundtrip [1, 3, 5] (by decide) (by decide)⟩

/-- C10: a workout created with `schedule.days = []` stores
`scheduleDays = ""`, and every read through `parseWorkoutScheduleDays`
(`GET /workouts` and the `POST /workouts` response) yields the one-element
array `[NaN]` (modelled `[none]`), not `[]` — the round-trip fails there. -/
theorem empty_days_parse_nan (db : DB) (u : Int) (i : WorkoutInput)
    (nid nexid : Int) (w : Workout)
    (hd : i.schedule.days = []) (hok : workoutSchemaOk i = true)
    (hw : (postWorkout db u i nid nexid).1 = Except.ok w) :
    w.scheduleDays = "" ∧ parseWorkoutScheduleDays w = [none] ∧
    ([none] : List (Option Int)) ≠ ([] : List (Option Int)) ∧
    ∀ db2 u2, ∀ e ∈ getAllWorkouts db2 u2, e.1 = w → e.2.1 = [none] := by
  have hw2 : w.scheduleDays = joinDaysStr i.schedule.days := by
    unfold postWorkout at hw
    rw [hok] at hw
    simp only [if_true] at hw
    cases hw
    rfl
  have hempty : w.scheduleDays = "" := by
    rw [hw2, hd]
    rfl
  have hparse : parseWorkoutScheduleDays w = [none] := by
    unfold parseWorkoutScheduleDays
    rw [hempty]
    rfl
  refine ⟨hempty, hparse, by decide, ?_⟩
  intro db2 u2 e he heq
  unfold getAllWorkouts at he
  rcases List.mem_map.mp he with ⟨w2, _, hw2eq⟩
  rw [← hw2eq] at heq ⊢
  simp only at heq ⊢
  rw [heq, hparse]

/-- Witness for C10 at a concrete creation with empty `days`. -/
theorem empty_days_parse_nan_witness :
    emptyDaysInput.schedule.days = [] ∧ workoutSchemaOk emptyDaysInput = true ∧
    (postWorkout emptyDB 1 emptyDaysInput 1 1).1 =
      Except.ok ⟨1, "D", "Legs", 1, "daily", "", 2⟩ ∧
    parseWorkoutScheduleDays ⟨1, "D", "Legs", 1, "daily", "", 2⟩ = [none] :=
  ⟨by decide, by decide, rfl,
    (empty_days_parse_nan emptyDB 1 emptyDaysInput 1 1 _
      (by decide) (by decide) rfl).2.1⟩

/-- C2: day resolution scans the user's workouts in stable creation (id
ascending) order — `findFirst` over the id-ordered table — and returns the
first whose schedule matches; with two or more matches the one first in that
order (least id) wins; with none, the route answers the Rest sentinel
`{ category: 'Rest', exercises: [] }` with no workout resolved.  The
resolver is a pure function of the table and the date, so repeated calls on
identical input are deterministic by construction. -/
theorem day_resolver_first_match (db : DB) (u day : Int)
    (hs : List.Pairwise (fun a b => a.id < b.id) db.workouts) :
    (findScheduled db u (weekdayOfDay day) = none →
       getWorkoutForDate db u day = ⟨day, "Rest", []⟩ ∧
       ∀ w ∈ db.workouts, workoutQueryPred u (weekdayOfDay day) w = false) ∧
    (∀ w, findScheduled db u (weekdayOfDay day) = some w →
       w ∈ db.workouts ∧ workoutQueryPred u (weekdayOfDay day) w = true ∧
       getWorkoutForDate db u day = ⟨day, w.category, exercisesOf db w.id⟩ ∧
       ∀ w2 ∈ db.workouts, workoutQueryPred u (weekdayOfDay day) w2 = true →
         w.id ≤ w2.id) := by
  constructor
  · intro hn
    constructor
    · unfold getWorkoutForDate
      rw [hn]
    · intro w hw
      unfold findScheduled at hn
      have := List.find?_eq_none.mp hn w hw
      simpa using this
  · intro w hf
    refine ⟨?_, ?_, ?_, ?_⟩
    · exact List.mem_of_find?_eq_some hf
    · exact List.find?_some hf
    · unfold getWorkoutForDate
      rw [hf]
    · unfold findScheduled at hf
      exact find?_min_id _ _ hs w hf

/-- Witness for C2: on a Monday (epoch day 4) both workouts of `dbTwo`
match, and the resolver returns the one created first. -/
theorem day_resolver_first_match_witness :
    List.Pairwise (fun a b => a.id < b.id) dbTwo.workouts ∧
    (wDaily ∈ dbTwo.workouts ∧
     workoutQueryPred 1 (weekdayOfDay 4) wDaily = true ∧
     getWorkoutForDate dbTwo 1 4 = ⟨4, wDaily.category, exercisesOf dbTwo wDaily.id⟩ ∧
     ∀ w2 ∈ dbTwo.workouts, workoutQueryPred 1 (weekdayOfDay 4) w2 = true →
       wDaily.id ≤ w2.id) :=
  ⟨by decide, (day_resolver_first_match dbTwo 1 4 (by decide)).2 wDaily (by decide)⟩

/-- The week entry built for day `d` carries date `d`, in both branches. -/
theorem weekEntryFor_date (db : DB) (u d : Int) : (weekEntryFor db u d).date = d := by
  unfold weekEntryFor
  cases findScheduled db u (weekdayOfDay d) <;> rfl

/-- A day with no matching workout yields the Rest entry. -/
theorem weekEntryFor_rest (db : DB) (u d : Int)
    (h : findScheduled db u (weekdayOfDay d) = none) :
    weekEntryFor db u d = ⟨none, d, "Rest", []⟩ := by
  unfold weekEntryFor
  rw [h]

/-- Each entry is a function of the database and its own date alone. -/
theorem weekEntryFor_self (db : DB) (u d : Int) :
    weekEntryFor db u d = weekEntryFor db u ((weekEntryFor db u d).date) := by
  rw [weekEntryFor_date]

/-- Field form of `weekEntryFor_rest`, keyed on the entry's own date. -/
theorem weekEntryFor_restFields (db : DB) (u d : Int)
    (h : findScheduled db u (weekdayOfDay ((weekEntryFor db u d).date)) = none) :
    (weekEntryFor db u d).id = none ∧ (weekEntryFor db u d).category = "Rest" ∧
    (weekEntryFor db u d).exercises = [] := by
  rw [weekEntryFor_date] at h
  rw [weekEntryFor_rest db u d h]
  exact ⟨rfl, rfl, rfl⟩

/-- C3: for every database (including one with no workouts) and start date,
the week view has exactly 7 entries dated `start .. start + 6` in ascending
order, each resolved independently from its own date, and days with no
matching workout appear as Rest entries (`id` null, category `Rest`, empty
exercises) — no day is omitted. -/
theorem week_projector_seven_days (db : DB) (u s : Int) :
    (getWeek db u s).length = 7 ∧
    (getWeek db u s).map WeekEntry.date =
      [s, s + 1, s + 2, s + 3, s + 4, s + 5, s + 6] ∧
    List.Pairwise (fun a b => a < b) ((getWeek db u s).map WeekEntry.date) ∧
    (∀ e ∈ getWeek db u s, e = weekEntryFor db u e.date) ∧
    (∀ e ∈ getWeek db u s,
       findScheduled db u (weekdayOfDay e.date) = none →
         e.id = none ∧ e.category = "Rest" ∧ e.exercises = []) := by
  have hexp : getWeek db u s =
      [weekEntryFor db u (s + 0), weekEntryFor db u (s + 1),
       weekEntryFor db u (s + 2), weekEntryFor db u (s + 3),
       weekEntryFor db u (s + 4), weekEntryFor db u (s + 5),
       weekEntryFor db u (s + 6)] := by
    unfold getWeek
    rfl
  have hmap : (getWeek db u s).map WeekEntry.date =
      [s, s + 1, s + 2, s + 3, s + 4, s + 5, s + 6] := by
    rw [hexp]
    simp [weekEntryFor_date]
  refine ⟨by rw [hexp]; rfl, hmap, ?_, ?_, ?_⟩
  · rw [hmap]
    norm_num [List.pairwise_cons]
  · rw [hexp]
    intro e he
    simp only [List.mem_cons, List.not_mem_nil, or_false] at he
    rcases he with h | h | h | h | h | h | h <;> rw [h] <;>
      exact weekEntryFor_self db u _
  · rw [hexp]
    intro e he
    simp only [List.mem_cons, List.not_mem_nil, or_false] at he
    rcases he with h | h | h | h | h | h | h <;> rw [h] <;>
      exact fun hn => weekEntryFor_restFields db u _ (by rw [← h] at hn; rw [h] at hn; exact hn)

/-- Witness for C3 on the empty database: all 7 entries are Rest days. -/
theorem week_projector_seven_days_witness :
    (getWeek emptyDB 1 0).length = 7 ∧
    (getWeek emptyDB 1 0).map WeekEntry.date = [0, 1, 2, 3, 4, 5, 6] ∧
    (∀ e ∈ getWeek emptyDB 1 0,
       findScheduled emptyDB 1 (weekdayOfDay e.date) = none →
         e.id = none ∧ e.category = "Rest" ∧ e.exercises = []) := by
  have h := week_projector_seven_days emptyDB 1 0
  exact ⟨h.1, by simpa using h.2.1, h.2.2.2.2⟩

/-- C4 counterexample: the `DELETE /:id` of `workouts.ts` deletes exercises
and workout in two independent calls and never touches logs; on a workout
that has a log, the `Workout` delete is blocked by the `ON DELETE RESTRICT`
foreign key after the exercise deletion already committed, leaving the
observable partial state the claim rules out: exercises gone, workout and
log still present. -/
theorem delete_cascade_cex :
    (deleteWorkoutRoute exDB 1).1 = Except.error 500 ∧
    exDB.exercises ≠ [] ∧
    (deleteWorkoutRoute exDB 1).2.exercises = [] ∧
    (deleteWorkoutRoute exDB 1).2.workouts = [wDaily] ∧
    (deleteWorkoutRoute exDB 1).2.logs = exDB.logs := by
  refine ⟨rfl, by decide, by decide, by decide, by decide⟩

/-- C4 (amended): only the transactional `DELETE /:id` variant (second
workout router, in `auth.ts`) is atomic and cascades to logs: it either
leaves the database unchanged (404: absent or foreign-owned workout) or, in
one atomic transaction, removes the workout, all its exercises and all its
logs while preserving every unrelated row; the `workouts.ts` variant deletes
exercises then the workout without touching logs and can leave the partial
state of the counterexample. -/
theorem delete_tx_atomic (db : DB) (u wid : Int) :
    ((deleteWorkoutTxRoute db u wid).1 = Except.error 404 ∧
       (deleteWorkoutTxRoute db u wid).2 = db) ∨
    ((deleteWorkoutTxRoute db u wid).1 = Except.ok () ∧
     (∀ w ∈ (deleteWorkoutTxRoute db u wid).2.workouts, w.id ≠ wid) ∧
     (∀ e ∈ (deleteWorkoutTxRoute db u wid).2.exercises, e.workoutId ≠ wid) ∧
     (∀ l ∈ (deleteWorkoutTxRoute db u wid).2.logs, l.workoutId ≠ wid) ∧
     (∀ w ∈ db.workouts, w.id ≠ wid →
        w ∈ (deleteWorkoutTxRoute db u wid).2.workouts) ∧
     (∀ e ∈ db.exercises, e.workoutId ≠ wid →
        e ∈ (deleteWorkoutTxRoute db u wid).2.exercises) ∧
     (∀ l ∈ db.logs, l.workoutId ≠ wid →
        l ∈ (deleteWorkoutTxRoute db u wid).2.logs)) := by
  unfold deleteWorkoutTxRoute
  cases hf : db.workouts.find? (fun w => w.id == wid && w.userId == u) with
  | none =>
    simp only [hf]
    refine Or.inl ⟨?_, ?_⟩ <;> trivial
  | some w =>
    simp only [hf]
    refine Or.inr ⟨by trivial, ?_, ?_, ?_, ?_, ?_, ?_⟩
    · intro x hx
      have h2 := (List.mem_filter.mp hx).2
      simpa using h2
    · intro x hx
      have h2 := (List.mem_filter.mp hx).2
      simpa using h2
    · intro x hx
      have h2 := (List.mem_filter.mp hx).2
      simpa using h2
    · intro x hx hne
      exact List.mem_filter.mpr ⟨hx, by simpa using hne⟩
    · intro x hx hne
      exact List.mem_filter.mpr ⟨hx, by simpa using hne⟩
    · intro x hx hne
      exact List.mem_filter.mpr ⟨hx, by simpa using hne⟩

/-- Witness for C4 (amended) on a concrete owned workout with a log. -/
theorem delete_tx_atomic_witness :
    ((deleteWorkoutTxRoute exDB 1 1).1 = Except.error 404 ∧
       (deleteWorkoutTxRoute exDB 1 1).2 = exDB) ∨
    ((deleteWorkoutTxRoute exDB 1 1).1 = Except.ok () ∧
     (∀ w ∈ (deleteWorkoutTxRoute exDB 1 1).2.workouts, w.id ≠ 1) ∧
     (∀ e ∈ (deleteWorkoutTxRoute exDB 1 1).2.exercises, e.workoutId ≠ 1) ∧
     (∀ l ∈ (deleteWorkoutTxRoute exDB 1 1).2.logs, l.workoutId ≠ 1) ∧
     (∀ w ∈ exDB.workouts, w.id ≠ 1 →
        w ∈ (deleteWorkoutTxRoute exDB 1 1).2.workouts) ∧
     (∀ e ∈ exDB.exercises, e.workoutId ≠ 1 →
        e ∈ (deleteWorkoutTxRoute exDB 1 1).2.exercises) ∧
     (∀ l ∈ exDB.logs, l.workoutId ≠ 1 →
        l ∈ (deleteWorkoutTxRoute exDB 1 1).2.logs)) :=
  delete_tx_atomic exDB 1 1

/-- C5 counterexample: `POST /:id/log` stores `date: new Date()` — the
server receipt instant 555 — although the client supplied 999, and it
rejects nothing with 400 even when `date` and `workoutId` are missing. -/
theorem log_route_wall_clock_cex :
    (postIdLog exDB 1 1 logBodyFull 555 2).1 =
      Except.ok ⟨2, 1, 1, 555, [benchResult]⟩ ∧
    logBodyFull.date = some 999 ∧ (555 : Int) ≠ 999 ∧
    (postIdLog exDB 1 1 ⟨none, some [benchResult], none⟩ 555 2).1 ≠
      Except.error 400 := by
  refine ⟨rfl, rfl, by decide, ?_⟩
  intro h
  exact Except.noConfusion h

/-- C5 (amended): `POST /logs` behaves as claimed — result independent of
the server receipt time, 400 with nothing persisted when `date`, `exercises`
or `workoutId` is missing, and on success the row carries the
client-supplied date and a snapshot copy of the submitted results (exercise
row updates never touch stored logs); `POST /:id/log`, by contrast, stamps
the wall clock and skips the field validation (see the counterexample). -/
theorem post_logs_client_date (db : DB) (u : Int) (body : LogBody)
    (n1 n2 newId : Int) :
    postLogs db u body n1 newId = postLogs db u body n2 newId ∧
    ((body.date = none ∨ body.exercises = none ∨ body.workoutId = none) →
       postLogs db u body n1 newId = (Except.error 400, db)) ∧
    (∀ d exs wid, body = ⟨some d, some exs, some wid⟩ →
       db.workouts.any (fun w => w.id == wid) = true →
       postLogs db u body n1 newId =
         (Except.ok ⟨newId, u, wid, d, exs⟩,
          { db with logs := db.logs ++ [⟨newId, u, wid, d, exs⟩] })) ∧
    (∀ db2 u2 eid data, (updateExerciseRoute db2 u2 eid data).2.logs = db2.logs) := by
  obtain ⟨bd, be, bw⟩ := body
  refine ⟨rfl, ?_, ?_, ?_⟩
  · rintro (h | h | h) <;> simp only at h <;> subst h
    · rfl
    · cases bd <;> rfl
    · cases bd with
      | none => rfl
      | some d => cases be <;> rfl
  · intro d exs wid hbody hany
    cases hbody
    simp only [postLogs, hany, if_true]
  · intro db2 u2 eid data
    simp only [updateExerciseRoute]
    split <;> rfl

/-- Witness for C5 (amended): the persisted date is the client's 999, not
the receipt time 7. -/
theorem post_logs_client_date_witness :
    postLogs exDB 1 logBodyFull 7 2 =
      (Except.ok ⟨2, 1, 1, 999, [benchResult]⟩,
       { exDB with logs := exDB.logs ++ [⟨2, 1, 1, 999, [benchResult]⟩] }) :=
  (post_logs_client_date exDB 1 logBodyFull 7 0 2).2.2.1 999 [benchResult] 1 rfl
    (by decide)

/-- C6 counterexample: workout 1 of `exDB2` belongs to user 2, yet user 1
logging against it succeeds and persists a row — no 404, no ownership
validation, contradicting the claim that no log is created in that case. -/
theorem log_ownership_cex :
    exDB2.workouts = [⟨1, "Leg Day", "Legs", 2, "daily", "", 1⟩] ∧
    (postLogs exDB2 1 ⟨some 100, some [benchResult], some 1⟩ 0 1).1 =
      Except.ok ⟨1, 1, 1, 100, [benchResult]⟩ ∧
    (postLogs exDB2 1 ⟨some 100, some [benchResult], some 1⟩ 0 1).2.logs =
      [⟨1, 1, 1, 100, [benchResult]⟩] := by
  refine ⟨rfl, rfl, by decide⟩

/-- C6 (amended): neither log route checks ownership: whenever a workout
with the target id exists — whoever owns it — the log row is persisted for
the caller; when no such workout exists the insert fails with 500 (foreign
key), not 404, and nothing is persisted. -/
theorem log_routes_no_ownership_check (db : DB) (u d : Int)
    (exs : List ExerciseResult) (wid now newId : Int) :
    ((∃ w ∈ db.workouts, w.id = wid) →
       postLogs db u ⟨some d, some exs, some wid⟩ now newId =
         (Except.ok ⟨newId, u, wid, d, exs⟩,
          { db with logs := db.logs ++ [⟨newId, u, wid, d, exs⟩] })) ∧
    ((∀ w ∈ db.workouts, w.id ≠ wid) →
       postLogs db u ⟨some d, some exs, some wid⟩ now newId =
         (Except.error 500, db)) ∧
    ((∃ w ∈ db.workouts, w.id = wid) →
       postIdLog db u wid ⟨some d, some exs, some wid⟩ now newId =
         (Except.ok ⟨newId, u, wid, now, exs⟩,
          { db with logs := db.logs ++ [⟨newId, u, wid, now, exs⟩] })) := by
  have hany : (∃ w ∈ db.workouts, w.id = wid) →
      db.workouts.any (fun w => w.id == wid) = true := by
    rintro ⟨w, hw, hid⟩
    exact List.any_eq_true.mpr ⟨w, hw, by simpa using hid⟩
  have hnone : (∀ w ∈ db.workouts, w.id ≠ wid) →
      db.workouts.any (fun w => w.id == wid) = false := by
    intro h
    rw [← Bool.not_eq_true, List.any_eq_true]
    rintro ⟨w, hw, hid⟩
    exact h w hw (by simpa using hid)
  refine ⟨?_, ?_, ?_⟩
  · intro hex
    simp only [postLogs, hany hex, if_true]
  · intro hall
    simp only [postLogs, hnone hall, Bool.false_eq_true, if_false]
  · intro hex
    simp only [postIdLog, hany hex, if_true]

/-- Witness for C6 (amended): the cross-user log of the counterexample state. -/
theorem log_routes_no_ownership_check_witness :
    (∃ w ∈ exDB2.workouts, w.id = 1) ∧
    postLogs exDB2 1 ⟨some 100, some [benchResult], some 1⟩ 0 1 =
      (Except.ok ⟨1, 1, 1, 100, [benchResult]⟩,
       { exDB2 with logs := exDB2.logs ++ [⟨1, 1, 1, 100, [benchResult]⟩] }) :=
  ⟨by decide,
    (log_routes_no_ownership_check exDB2 1 100 [benchResult] 1 0 1).1 (by decide)⟩

/-- C7: the per-date log lookup returns exactly the caller's logs whose
timestamp lies in the inclusive window from 00:00:00.000 to 23:59:59.999 of
the requested day (`day * 86400000` to `day * 86400000 + 86399999`
milliseconds): both boundaries included, adjacent days excluded; the
enriched, date-sorted `GET /logs/:date` returns the same set of logs. -/
theorem logs_for_date_window (db : DB) (u day : Int) (l : LogRow) :
    (l ∈ getLogs db u day ↔
       l ∈ db.logs ∧ l.userId = u ∧
       day * msPerDay ≤ l.date ∧ l.date ≤ day * msPerDay + 86399999) ∧
    (l ∈ (getLogsForDate db u day).map Prod.fst ↔ l ∈ getLogs db u day) := by
  constructor
  · unfold getLogs
    rw [List.mem_filter]
    simp [and_assoc]
  · unfold getLogsForDate
    rw [List.map_map]
    simp [Function.comp, List.mem_mergeSort]

/-- C8 counterexample: `workoutSchema` accepts a `weekly` schedule whose
`days` are out of range and duplicated (`[9,9]`), and one whose `days` are
empty, and the route persists the workout — no `ValidationError`. -/
theorem schema_days_unvalidated_cex :
    workoutSchemaOk badDaysInput = true ∧
    badDaysInput.schedule.type = "weekly" ∧
    badDaysInput.schedule.days = [9, 9] ∧
    (postWorkout emptyDB 1 badDaysInput 1 1).1 =
      Except.ok ⟨1, "A", "Push", 1, "weekly", "9,9", 1⟩ ∧
    (postWorkout emptyDB 1 badDaysInput 1 1).2.workouts =
      [⟨1, "A", "Push", 1, "weekly", "9,9", 1⟩] ∧
    workoutSchemaOk ⟨"B", "Push", [], ⟨"weekly", [], 1⟩⟩ = true := by
  refine ⟨by decide, rfl, rfl, rfl, by decide, by decide⟩

/-- C8 (amended): creation validates only the literals — `category` among
the five allowed and `schedule.type` among `weekly`/`daily`; `days` is any
array of numbers (possibly empty, out of range or duplicated).  Inputs
failing those literal checks are rejected with 400 and nothing is created;
accepted inputs persist the workout with `scheduleDays = days.join(',')`. -/
theorem post_workout_validation (db : DB) (u : Int) (i : WorkoutInput)
    (nid nexid : Int) :
    (workoutSchemaOk i = true ↔
      (i.category = "Push" ∨ i.category = "Pull" ∨ i.category = "Legs" ∨
        i.category = "Upper" ∨ i.category = "Lower") ∧
      (i.schedule.type = "weekly" ∨ i.schedule.type = "daily")) ∧
    (workoutSchemaOk i = false →
       postWorkout db u i nid nexid = (Except.error 400, db)) ∧
    (workoutSchemaOk i = true →
       postWorkout db u i nid nexid =
         (Except.ok ⟨nid, i.name, i.category, u, i.schedule.type,
            joinDaysStr i.schedule.days, i.schedule.frequency⟩,
          { db with
              workouts := db.workouts ++ [⟨nid, i.name, i.category, u,
                i.schedule.type, joinDaysStr i.schedule.days, i.schedule.frequency⟩]
              exercises := db.exercises ++ mkExerciseRows nexid nid i.exercises })) := by
  refine ⟨?_, ?_, ?_⟩
  · unfold workoutSchemaOk
    simp only [Bool.and_eq_true, Bool.or_eq_true, beq_iff_eq]
    tauto
  · intro h
    unfold postWorkout
    simp [h]
  · intro h
    unfold postWorkout
    simp [h]

/-- Witness for C8 (amended): a category and type outside the literals are
rejected with 400 and nothing is created. -/
theorem post_workout_validation_witness :
    workoutSchemaOk ⟨"A", "Kardio", [], ⟨"sometimes", [1], 1⟩⟩ = false ∧
    postWorkout emptyDB 1 ⟨"A", "Kardio", [], ⟨"sometimes", [1], 1⟩⟩ 1 1 =
      (Except.error 400, emptyDB) :=
  ⟨by decide, (post_workout_validation emptyDB 1 _ 1 1).2.1 (by decide)⟩

end WorkoutRepo
